import Mathlib

/-!
Verification of the rustitles subtitle downloader (`src/app.rs`,
`src/subtitle_utils.rs`, `src/helper_functions.rs`, `src/settings.rs`,
`src/config.rs`, `src/gui.rs`) against its natural-language specification.

The Rust code is shallowly embedded: pure functions become Lean functions,
the scheduler/worker/cancellation concurrency is a labelled step relation on
an explicit state type, and external collaborators (filesystem probes,
subprocess launches, the ffprobe embedded-subtitle probe) are inputs.
-/

/- ## String utilities

Character-list substring search modelling Rust `str::contains`, plus
ASCII models of `String::to_lowercase` and `str::trim` (all marker
phrases scanned by the code are ASCII). -/

/-- First-list-starts-second check on character lists. -/
def chPre : List Char → List Char → Bool
  | [], _ => true
  | _ :: _, [] => false
  | a :: as, b :: bs => a == b && chPre as bs

/-- Substring occurrence check on character lists. -/
def chSub (needle : List Char) : List Char → Bool
  | [] => chPre needle []
  | hay@(_ :: rest) => chPre needle hay || chSub needle rest

/-- Model of Rust `str::contains` (substring search). -/
def strContainsSub (hay needle : String) : Bool :=
  chSub needle.data hay.data

/-- ASCII model of Rust `String::to_lowercase`. -/
def strToLower (s : String) : String :=
  String.mk (s.data.map Char.toLower)

/-- ASCII model of Rust `str::trim`. -/
def strTrim (s : String) : String :=
  String.mk (((s.data.dropWhile Char.isWhitespace).reverse.dropWhile Char.isWhitespace).reverse)

/-- app.rs 505-507: stdout and stderr are lowercased, joined with a newline
and trimmed into one blob for classification. -/
def combineOutput (stdout stderr : String) : String :=
  strTrim (strToLower stdout ++ "\n" ++ strToLower stderr)

/- ## Data model (`src/data_structures.rs`) -/

/-- data_structures.rs 17-23: status of a subtitle download job. -/
inductive JobStatus where
  | Pending
  | Running
  | Success
  | EmbeddedExists (msg : String)
  | Failed (msg : String)
deriving DecidableEq

/-- Terminal statuses (`Success`, `EmbeddedExists`, `Failed`). -/
def isTerminal : JobStatus → Bool
  | .Success => true
  | .EmbeddedExists _ => true
  | .Failed _ => true
  | .Pending => false
  | .Running => false

/- ## Language names (`src/subtitle_utils.rs` 59-151) -/

/-- subtitle_utils.rs 59-151: convert a language code to a human-readable name. -/
def language_code_to_name (code : String) : String :=
  match code with
  | "en" => "English"
  | "en-us" => "English (US)"
  | "en-gb" => "English (UK)"
  | "fr" => "French"
  | "fr-ca" => "French (Canada)"
  | "es" => "Spanish"
  | "es-mx" => "Spanish (Mexico)"
  | "es-es" => "Spanish (Spain)"
  | "de" => "German"
  | "de-at" => "German (Austria)"
  | "de-ch" => "German (Switzerland)"
  | "it" => "Italian"
  | "it-ch" => "Italian (Switzerland)"
  | "pt" => "Portuguese"
  | "pt-br" => "Portuguese (Brazil)"
  | "pt-pt" => "Portuguese (Portugal)"
  | "nl" => "Dutch"
  | "nl-be" => "Dutch (Belgium)"
  | "pl" => "Polish"
  | "ru" => "Russian"
  | "sv" => "Swedish"
  | "fi" => "Finnish"
  | "da" => "Danish"
  | "no" => "Norwegian"
  | "cs" => "Czech"
  | "hu" => "Hungarian"
  | "ro" => "Romanian"
  | "bg" => "Bulgarian"
  | "hr" => "Croatian"
  | "et" => "Estonian"
  | "el" => "Greek"
  | "is" => "Icelandic"
  | "lv" => "Latvian"
  | "lt" => "Lithuanian"
  | "mt" => "Maltese"
  | "sk" => "Slovak"
  | "sl" => "Slovenian"
  | "tr" => "Turkish"
  | "uk" => "Ukrainian"
  | "he" => "Hebrew"
  | "ar" => "Arabic"
  | "ja" => "Japanese"
  | "ko" => "Korean"
  | "zh" => "Chinese"
  | "zh-cn" => "Chinese (Simplified)"
  | "zh-tw" => "Chinese (Traditional)"
  | "th" => "Thai"
  | "vi" => "Vietnamese"
  | "id" => "Indonesian"
  | "ms" => "Malay"
  | "fil" => "Filipino/Tagalog"
  | "bn" => "Bengali"
  | "hi" => "Hindi"
  | "ur" => "Urdu"
  | "fa" => "Persian/Farsi"
  | "af" => "Afrikaans"
  | "sw" => "Swahili"
  | "zu" => "Zulu"
  | "xh" => "Xhosa"
  | "ku" => "Kurdish"
  | "az" => "Azerbaijani"
  | "ka" => "Georgian"
  | "am" => "Amharic"
  | "ta" => "Tamil"
  | "te" => "Telugu"
  | "kn" => "Kannada"
  | "ml" => "Malayalam"
  | "gu" => "Gujarati"
  | "pa" => "Punjabi"
  | "or" => "Odia"
  | "mn" => "Mongolian"
  | "my" => "Burmese"
  | "lo" => "Lao"
  | "km" => "Khmer"
  | _ => code

/- ## Outcome classification (`src/app.rs` 501-571) -/

/-- app.rs 501-503: the fixed set of "already satisfied" phrases. -/
def embedded_phrases : List String :=
  ["embedded", "already exists", "no need to download", "subtitle(s) already present",
   "has embedded subtitles", "skipping"]

/-- The `EmbeddedExists` message built at app.rs 538 and 542. -/
def embeddedMsg (lang_name : String) : String :=
  "Embedded " ++ lang_name ++ " subtitles already exist (no external subtitles found online)"

/-- app.rs 531-571: classify the combined tool output into a terminal status.
`embedded_probe` is the result of the external ffprobe collaborator
(`SubtitleUtils::has_embedded_subtitle`), consulted only in the branch where
the code calls it. -/
def classify (combined_output : String) (subtitle_paths : List String)
    (force_download : Bool) (langs : List String)
    (embedded_probe : Option String) : JobStatus :=
  if strContainsSub combined_output "downloaded 0 subtitle" then
    if !subtitle_paths.isEmpty then
      .Success
    else if !force_download then
      match embedded_probe with
      | some lang_name => .EmbeddedExists (embeddedMsg lang_name)
      | none =>
        if embedded_phrases.any (fun phrase => strContainsSub combined_output phrase) then
          .EmbeddedExists (embeddedMsg (language_code_to_name (langs.getD 0 "unknown")))
        else
          .Failed "No subtitles found (no embedded or external subtitles available)"
    else
      .Failed "No subtitles found online"
  else if strContainsSub combined_output "error" || strContainsSub combined_output "failed" then
    if strContainsSub combined_output "dbm.error"
        || strContainsSub combined_output "db type could not be determined" then
      if !subtitle_paths.isEmpty then .Success
      else .Failed "DBM cache error - try again later"
    else if !subtitle_paths.isEmpty then .Success
    else .Failed "Subliminal error: see log"
  else
    .Success

/-- The DBM cache-corruption signature test of app.rs 552. -/
def dbmSignature (combined_output : String) : Bool :=
  strContainsSub combined_output "dbm.error"
    || strContainsSub combined_output "db type could not be determined"

/-- The error/failure keyword test of app.rs 550. -/
def errorKeyword (combined_output : String) : Bool :=
  strContainsSub combined_output "error" || strContainsSub combined_output "failed"

/- ## Subtitle file lookup (`src/subtitle_utils.rs` 14-56) -/

/-- subtitle_utils.rs 23: subtitle extensions tried in order. -/
def subtitle_extensions : List String := ["srt", "sub", "ssa", "ass", "vtt"]

/-- Path join, modelling `PathBuf::join` with a `/` separator. -/
def pathJoin (folder name : String) : String := folder ++ "/" ++ name

/-- subtitle_utils.rs 29-37: language-specific candidate files
`folder/stem.lang.ext` in extension order. -/
def langCandidates (folder stem lang : String) : List String :=
  subtitle_extensions.map (fun ext => pathJoin folder (stem ++ "." ++ lang ++ "." ++ ext))

/-- subtitle_utils.rs 40-47: generic candidate files `folder/stem.ext`
in extension order. -/
def genCandidates (folder stem : String) : List String :=
  subtitle_extensions.map (fun ext => pathJoin folder (stem ++ "." ++ ext))

/-- The for-loop with `break` of subtitle_utils.rs 30-37 and 40-47: the first
candidate that exists (the filesystem is the predicate `ex`). -/
def firstExisting (ex : String → Bool) : List String → Option String
  | [] => none
  | c :: cs => if ex c then some c else firstExisting ex cs

/-- subtitle_utils.rs 14-56 `SubtitleUtils::find_all_subtitle_files`.
`parent` is `video_path.parent()` and `stem` is
`video_path.file_stem().and_then(to_str)` (`none` models a missing parent,
respectively a missing or non-UTF-8 stem). -/
def find_all_subtitle_files (ex : String → Bool) (parent : Option String)
    (stem : Option String) (langs : List String) : List String :=
  match parent with
  | none => []
  | some folder =>
    match stem with
    | none => []
    | some st =>
      let found := langs.foldl
        (fun acc lang =>
          match firstExisting ex (langCandidates folder st lang) with
          | some c => acc ++ [c]
          | none => acc) []
      match firstExisting ex (genCandidates folder st) with
      | some c => found ++ [c]
      | none => found

/- ## Worker invocation (`src/app.rs` 459-496, 574-579) -/

/-- app.rs 459-470: the argument list built by successive pushes:
`download`, `--force` once per enabled flag (`force_download`, then
`overwrite_existing`), then one `-l lang` pair per requested language. -/
def buildArgs (force_download overwrite_existing : Bool) (langs : List String) : List String :=
  let args := ["download"]
  let args := if force_download then args ++ ["--force"] else args
  let args := if overwrite_existing then args ++ ["--force"] else args
  langs.foldl (fun a lang => a ++ ["-l", lang]) args

/-- app.rs 473-474: the full argument list, target path pushed last. -/
def buildAllArgs (force_download overwrite_existing : Bool) (langs : List String)
    (target : String) : List String :=
  buildArgs force_download overwrite_existing langs ++ [target]

/-- Captured output of a launched process (`std::process::Output`). The exit
status is carried but never consulted by the fallback chain. -/
structure CmdOutput where
  exitOk : Bool
  stdout : String
  stderr : String

/-- app.rs 478-496: the ordered invocation chain: `subliminal` directly, then
`python -m subliminal`, `py -m subliminal`, `python3 -m subliminal`, each with
the same argument tail. -/
def fallbackChain (all_args : List String) : List (String × List String) :=
  [("subliminal", all_args),
   ("python", ["-m", "subliminal"] ++ all_args),
   ("py", ["-m", "subliminal"] ++ all_args),
   ("python3", ["-m", "subliminal"] ++ all_args)]

/-- The `or_else` chain of app.rs 478-496: try each launch in order, use the
first that starts (`some`), regardless of its exit status. -/
def tryChain (launch : String → List String → Option CmdOutput) :
    List (String × List String) → Option CmdOutput
  | [] => none
  | (cmd, args) :: rest =>
    match launch cmd args with
    | some out => some out
    | none => tryChain launch rest

/-- app.rs 478-579: the worker's terminal status for one job. `launch` models
`PythonManager::run_command_hidden` (`none` = failed to start), `paths` the
result of `find_all_subtitle_files`, `embedded_probe` the ffprobe collaborator. -/
def workerOutcome (launch : String → List String → Option CmdOutput)
    (force_download overwrite_existing : Bool) (langs : List String) (target : String)
    (paths : List String) (embedded_probe : Option String) : JobStatus :=
  match tryChain launch (fallbackChain (buildAllArgs force_download overwrite_existing langs target)) with
  | some out => classify (combineOutput out.stdout out.stderr) paths force_download langs embedded_probe
  | none => .Failed "Failed to run subliminal"

/- ## Settings and concurrency validation
(`src/config.rs`, `src/settings.rs`, `src/helper_functions.rs`, `src/gui.rs`) -/

/-- config.rs 20: default concurrent downloads. -/
def DEFAULT_CONCURRENT_DOWNLOADS : Nat := 25

/-- config.rs 23: maximum concurrent downloads. -/
def MAX_CONCURRENT_DOWNLOADS : Nat := 100

/-- settings.rs 12-18: the persisted settings record. -/
structure SettingsRec where
  selected_languages : List String
  force_download : Bool
  overwrite_existing : Bool
  concurrent_downloads : Nat
  ignore_local_extras : Bool

/-- settings.rs 20-30: default settings. -/
def defaultSettings : SettingsRec :=
  { selected_languages := []
    force_download := false
    overwrite_existing := false
    concurrent_downloads := DEFAULT_CONCURRENT_DOWNLOADS
    ignore_local_extras := false }

/-- settings.rs 76-103 `Settings::load`: a successfully parsed file is used
as-is (no field validation); a missing or unparsable file yields the defaults. -/
def settingsLoad (parsed : Option SettingsRec) : SettingsRec :=
  parsed.getD defaultSettings

/-- app.rs 173 and 391: the loaded `concurrent_downloads` value is what the
scheduler uses as `max_concurrent`. -/
def schedulerLimitOfLoad (parsed : Option SettingsRec) : Nat :=
  (settingsLoad parsed).concurrent_downloads

/-- helper_functions.rs 95-97 `Validation::is_valid_concurrent_downloads`. -/
def is_valid_concurrent_downloads (value : Nat) : Prop :=
  0 < value ∧ value ≤ MAX_CONCURRENT_DOWNLOADS

instance (value : Nat) : Decidable (is_valid_concurrent_downloads value) := by
  unfold is_valid_concurrent_downloads; infer_instance

/-- gui.rs 322-334: the concurrent-downloads text-field handler. `input` is
the parse result of the entered text; an unparsable or invalid value leaves
the current setting unchanged. -/
def render_concurrent_update (current : Nat) (input : Option Nat) : Nat :=
  match input with
  | some value => if is_valid_concurrent_downloads value then value else current
  | none => current

/- ## Scheduler / worker pool step relation (`src/app.rs` 397-600)

The download thread, the per-job worker threads and the GUI cancel button
interleave on the shared job vector, so the run is modelled as a labelled
transition system.  One label per lock-protected write:
the scheduler's Running-write at admission (app.rs 416-423 together with the
spawn at 434 and the push at 582), a worker's single terminal write
(app.rs 435-441 for the early-cancel path, 498-579 for the classified path),
the cancellation sweep (app.rs 405-414 and 585-594, both of which end the
scheduler), the user setting the cancel flag, and the scheduler's normal
exit when queue and live set are empty (the while condition at 401). -/

/-- State of one download run: job count, statuses, FIFO queue of pending
indexes, indexes whose worker thread is spawned and has not yet written its
result, the shared cancel flag, and whether the scheduler thread has exited. -/
structure SchedState where
  n : Nat
  jobs : Nat → JobStatus
  pending : List Nat
  live : List Nat
  cancel : Bool
  done : Bool

/-- app.rs 379-398: all jobs start `Pending`, the queue holds all indexes in
order, no worker is live, the cancel flag is reset, the scheduler runs. -/
def initState (N : Nat) : SchedState :=
  { n := N
    jobs := fun _ => .Pending
    pending := List.range N
    live := []
    cancel := false
    done := false }

/-- app.rs 408-411 and 588-591: the cancellation sweep rewrites `Pending` and
`Running` jobs to `Failed("Cancelled")` and leaves the rest alone. -/
def cancelRewrite (st : JobStatus) : JobStatus :=
  if st = .Pending ∨ st = .Running then .Failed "Cancelled" else st

/-- Transition labels of one run. -/
inductive Label where
  | dispatch (i : Nat)
  | write (i : Nat) (t : JobStatus)
  | sweep
  | cancelReq
  | finish

/-- The step relation of one run with concurrency limit `C`. -/
inductive Step (C : Nat) : SchedState → Label → SchedState → Prop where
  /-- app.rs 404-423: while the live set is below `C`, the flag is unset and
  the queue non-empty, pop the next index, mark it Running, spawn its worker. -/
  | dispatch (s : SchedState) (i : Nat) (rest : List Nat) :
      s.done = false → s.cancel = false →
      s.pending = i :: rest → s.live.length < C →
      Step C s (.dispatch i)
        { s with jobs := fun j => if j = i then .Running else s.jobs j,
                 pending := rest,
                 live := i :: s.live }
  /-- app.rs 435-441 and 498-579: the worker for job `i` writes exactly one
  terminal status (`Failed("Cancelled")` on the early-cancel path, otherwise
  the classified outcome) and its thread finishes. -/
  | write (s : SchedState) (i : Nat) (t : JobStatus) :
      i ∈ s.live → isTerminal t = true →
      Step C s (.write i t)
        { s with jobs := fun j => if j = i then t else s.jobs j,
                 live := s.live.erase i }
  /-- app.rs 405-414 and 585-594: the scheduler observes the flag, rewrites
  every Pending/Running job to `Failed("Cancelled")`, abandons the queue and
  exits; already-spawned workers keep running. -/
  | sweep (s : SchedState) :
      s.done = false → s.cancel = true →
      Step C s .sweep
        { s with jobs := fun j => cancelRewrite (s.jobs j),
                 pending := [],
                 done := true }
  /-- gui.rs cancel button: `cancel_flag.store(true)`; never cleared during a run. -/
  | cancelReq (s : SchedState) :
      Step C s .cancelReq { s with cancel := true }
  /-- app.rs 401: the scheduler exits normally once queue and live set are empty. -/
  | finish (s : SchedState) :
      s.done = false → s.pending = [] → s.live = [] →
      Step C s .finish { s with done := true }

/-- Some step with some label. -/
def StepAny (C : Nat) (s s' : SchedState) : Prop := ∃ l, Step C s l s'

/-- States reachable in a run of `N` targets with concurrency limit `C`. -/
def Reach (C N : Nat) (s : SchedState) : Prop :=
  Relation.ReflTransGen (StepAny C) (initState N) s

/-- Number of jobs of the run currently in the `Running` state. -/
def runningCount (s : SchedState) : Nat :=
  ((Finset.range s.n).filter (fun i => s.jobs i = JobStatus.Running)).card

/-- The per-job status transitions claimed by the spec: stay, admission
Pending→Running, one worker terminal write Running→terminal, and the uniform
rewrite to `Failed("Cancelled")` at cancellation time. -/
def okC1 (cancel : Bool) (a b : JobStatus) : Bool :=
  a == b
    || (a == .Pending && b == .Running)
    || (a == .Running && isTerminal b)
    || (cancel && b == .Failed "Cancelled")

/-- The transitions the code actually performs: additionally, a worker still
live at cancellation may overwrite the `Failed("Cancelled")` rewrite with its
own terminal result (last-write-wins). -/
def okAmended (cancel : Bool) (a b : JobStatus) : Bool :=
  okC1 cancel a b || (cancel && a == .Failed "Cancelled" && isTerminal b)

/-- Claim C1 as stated: along every step of every run, each job's status
moves only along `okC1` edges. -/
def ClaimC1 : Prop :=
  ∀ (C N : Nat) (s : SchedState) (l : Label) (s' : SchedState),
    Reach C N s → Step C s l s' →
    ∀ j, j < s.n → okC1 s.cancel (s.jobs j) (s'.jobs j) = true

/-- Claim C3 as stated: if a run is cancelled (a sweep fires at state `s1`),
then in any later state where the scheduler is done and all workers have
finished, every job is either `Failed("Cancelled")` or still carries a
terminal status it already had when the scheduler observed the flag. -/
def ClaimC3 : Prop :=
  ∀ (C N : Nat) (s1 s2 sfin : SchedState),
    Reach C N s1 → Step C s1 .sweep s2 →
    Relation.ReflTransGen (StepAny C) s2 sfin →
    sfin.done = true → sfin.live = [] →
    ∀ j, j < sfin.n →
      sfin.jobs j = .Failed "Cancelled"
        ∨ (sfin.jobs j = s1.jobs j ∧ isTerminal (s1.jobs j) = true)

/-- The inductive invariant of the run, proved below for all reachable states. -/
structure SchedInv (C : Nat) (s : SchedState) : Prop where
  pending_lt : ∀ i ∈ s.pending, i < s.n
  live_lt : ∀ i ∈ s.live, i < s.n
  pending_nodup : s.pending.Nodup
  live_nodup : s.live.Nodup
  pending_not_live : ∀ i ∈ s.pending, i ∉ s.live
  pending_status : ∀ i ∈ s.pending, s.jobs i = .Pending
  pending_complete : ∀ i, s.jobs i = .Pending → i < s.n → i ∈ s.pending
  live_status : ∀ i ∈ s.live, s.jobs i = .Running ∨ (s.jobs i = .Failed "Cancelled" ∧ s.cancel = true)
  running_live : ∀ i, s.jobs i = .Running → i ∈ s.live
  live_le : s.live.length ≤ C
  done_pending : s.done = true → s.pending = []
  done_no_active : s.done = true → ∀ i, i < s.n → s.jobs i ≠ .Pending ∧ s.jobs i ≠ .Running

/- ## Installation monitor (`src/app.rs` 80-131, 135-152, 662-752)

Linux two-stage pipeline: stage 1 is pipx, stage 2 is subliminal.  The
background thread probes both and reports over a channel; the caller applies
received status pairs, spawning the one-shot subliminal installer thread. -/

/-- The caller-side installation state, with a ghost counter of how many
installer threads for subliminal have been spawned in this run. -/
structure MonState where
  python_installed : Bool
  pipx_installed : Bool
  subliminal_installed : Bool
  installing_subliminal : Bool
  trigger_count : Nat

/-- app.rs 135-152 (`SubtitleDownloader::default`): initial flags from the
startup probes; the installer thread is spawned at startup exactly when
python and pipx are present but subliminal is not. -/
def initMon (python pipx subl : Bool) : MonState :=
  { python_installed := python
    pipx_installed := pipx
    subliminal_installed := subl
    installing_subliminal := python && pipx && !subl
    trigger_count := if python && pipx && !subl then 1 else 0 }

/-- app.rs 673-725 (`refresh_installation_status`, Linux branch) applied to
one received status pair: record pipx availability, record subliminal
availability when python and pipx are present, and spawn the installer thread
exactly on a pipx false→true edge with subliminal still missing. -/
def applyStatus (st : MonState) (pipx_avail subl : Bool) : MonState :=
  let subl' := if st.python_installed && pipx_avail then subl else st.subliminal_installed
  if !st.pipx_installed && pipx_avail && !subl' then
    { st with pipx_installed := pipx_avail, subliminal_installed := subl',
              installing_subliminal := true, trigger_count := st.trigger_count + 1 }
  else
    { st with pipx_installed := pipx_avail, subliminal_installed := subl' }

/-- app.rs 666-671: `(false, false)` messages are liveness pings and ignored;
any other message is a status pair. -/
def applyMsg (st : MonState) (m : Bool × Bool) : MonState :=
  if m = (false, false) then st else applyStatus st m.1 m.2

/-- The caller consuming a sequence of channel messages. -/
def runCaller (st : MonState) (msgs : List (Bool × Bool)) : MonState :=
  msgs.foldl applyMsg st

/-- app.rs 80-131 (background thread, Linux branch): each iteration sends a
ping, probes pipx, probes subliminal only if pipx is available, sends the
pair, breaks once both are available, and otherwise sleeps in 50 ping-checked
slices.  `probes` is the stream of (pipx probe, subliminal probe) outcomes,
one per iteration; the result is the list of messages sent. -/
def monitorSends : List (Bool × Bool) → List (Bool × Bool)
  | [] => []
  | (p, sp) :: rest =>
    let subl := if p then sp else false
    (false, false) :: (p, subl) ::
      (if p && subl then []
       else List.replicate 50 (false, false) ++ monitorSends rest)

/- ## Claim statements as given, and concrete run fragments -/

/-- Claim C7 as stated, for the settings-file source: every concurrency value
that reaches the scheduler from `Settings::load` lies in `[1, MAX]`. -/
def ClaimC7 : Prop :=
  ∀ parsed : Option SettingsRec,
    1 ≤ schedulerLimitOfLoad parsed ∧ schedulerLimitOfLoad parsed ≤ MAX_CONCURRENT_DOWNLOADS

/-- Claim C8's argument-list shape as stated: the command line is the
`download` subcommand, at most one optional `--force`, the `-l lang` pairs in
request order, and the target last. -/
def ClaimC8Args : Prop :=
  ∀ (force_download overwrite_existing : Bool) (langs : List String) (target : String),
    ∃ singleForce : Bool,
      buildAllArgs force_download overwrite_existing langs target
        = ["download"] ++ (if singleForce then ["--force"] else [])
            ++ langs.flatMap (fun lang => ["-l", lang]) ++ [target]

/-- A one-job run with `C = 1`: the initial state. -/
def st0 : SchedState := initState 1

/-- After the scheduler admits job 0 (Running-write and spawn). -/
def st1 : SchedState :=
  { st0 with jobs := fun j => if j = 0 then .Running else st0.jobs j,
             pending := [],
             live := 0 :: st0.live }

/-- After the user presses cancel. -/
def st2 : SchedState := { st1 with cancel := true }

/-- After the scheduler's cancellation sweep (job 0 becomes
`Failed("Cancelled")`, scheduler exits, worker 0 still live). -/
def st3 : SchedState :=
  { st2 with jobs := fun j => cancelRewrite (st2.jobs j),
             pending := [],
             done := true }

/-- After worker 0 finishes its subprocess and writes its classified result,
overwriting the cancellation rewrite. -/
def st4 : SchedState :=
  { st3 with jobs := fun j => if j = 0 then .Success else st3.jobs j,
             live := st3.live.erase 0 }

/-- A parsed settings file with an out-of-range concurrency value. -/
def badSettings : SettingsRec := { defaultSettings with concurrent_downloads := 0 }

/- ## Basic lemmas -/

theorem isTerminal_ne_active {t : JobStatus} (h : isTerminal t = true) :
    t ≠ .Pending ∧ t ≠ .Running := by
  cases t <;> simp_all [isTerminal]

theorem isTerminal_of_ne_active {t : JobStatus} (h1 : t ≠ .Pending) (h2 : t ≠ .Running) :
    isTerminal t = true := by
  cases t <;> simp_all [isTerminal]

theorem cancelRewrite_not_active (st : JobStatus) :
    cancelRewrite st ≠ .Pending ∧ cancelRewrite st ≠ .Running := by
  cases st <;> simp [cancelRewrite]

theorem cancelRewrite_of_not_active {st : JobStatus}
    (h1 : st ≠ .Pending) (h2 : st ≠ .Running) : cancelRewrite st = st := by
  cases st <;> simp_all [cancelRewrite]

theorem cancelRewrite_active {st : JobStatus} (h : st = .Pending ∨ st = .Running) :
    cancelRewrite st = .Failed "Cancelled" := by
  rcases h with h | h <;> simp [cancelRewrite, h]

/- ## The scheduler invariant holds at every reachable state -/

theorem schedInv_init (C N : Nat) : SchedInv C (initState N) := by
  refine ⟨?_, ?_, ?_, ?_, ?_, ?_, ?_, ?_, ?_, ?_, ?_, ?_⟩ <;>
    simp [initState, List.mem_range, List.nodup_range]

theorem schedInv_step {C : Nat} {s : SchedState} {l : Label} {s' : SchedState}
    (hs : SchedInv C s) (h : Step C s l s') : SchedInv C s' := by
  cases h with
  | dispatch i rest hdone hcancel hpend hlen =>
    have hi_mem : i ∈ s.pending := by rw [hpend]; exact List.mem_cons_self i rest
    have hi_lt : i < s.n := hs.pending_lt i hi_mem
    have hi_pend : s.jobs i = .Pending := hs.pending_status i hi_mem
    have hi_notlive : i ∉ s.live := hs.pending_not_live i hi_mem
    have hcons : (i :: rest).Nodup := hpend ▸ hs.pending_nodup
    have hi_notrest : i ∉ rest := (List.nodup_cons.mp hcons).1
    have hrest_nodup : rest.Nodup := (List.nodup_cons.mp hcons).2
    have hrest_mem : ∀ j ∈ rest, j ∈ s.pending := by
      intro j hj; rw [hpend]; exact List.mem_cons_of_mem i hj
    refine ⟨?_, ?_, ?_, ?_, ?_, ?_, ?_, ?_, ?_, ?_, ?_, ?_⟩
    · intro j hj; exact hs.pending_lt j (hrest_mem j hj)
    · intro j hj
      rcases List.mem_cons.mp hj with rfl | hj
      · exact hi_lt
      · exact hs.live_lt j hj
    · exact hrest_nodup
    · exact List.nodup_cons.mpr ⟨hi_notlive, hs.live_nodup⟩
    · intro j hj hmem
      rcases List.mem_cons.mp hmem with rfl | hmem
      · exact hi_notrest hj
      · exact hs.pending_not_live j (hrest_mem j hj) hmem
    · intro j hj
      have hne : j ≠ i := fun e => hi_notrest (e ▸ hj)
      simp only [hne, if_false]
      exact hs.pending_status j (hrest_mem j hj)
    · intro j hj hjn
      by_cases hji : j = i
      · subst hji; simp at hj
      · simp only [hji, if_false] at hj
        have := hs.pending_complete j hj hjn
        rw [hpend] at this
        rcases List.mem_cons.mp this with rfl | hm
        · exact absurd rfl hji
        · exact hm
    · intro j hj
      rcases List.mem_cons.mp hj with rfl | hj
      · left; simp
      · have hne : j ≠ i := fun e => hi_notlive (e ▸ hj)
        simp only [hne, if_false]
        exact hs.live_status j hj
    · intro j hj
      by_cases hji : j = i
      · subst hji; exact List.mem_cons_self _ _
      · simp only [hji, if_false] at hj
        exact List.mem_cons_of_mem i (hs.running_live j hj)
    · simpa [List.length_cons] using hlen
    · intro hd; simp at hd; exact absurd (hdone ▸ hd) (by simp)
    · intro hd; simp at hd; exact absurd (hdone ▸ hd) (by simp)
  | write i t hmem hterm =>
    have ht := isTerminal_ne_active hterm
    refine ⟨?_, ?_, ?_, ?_, ?_, ?_, ?_, ?_, ?_, ?_, ?_, ?_⟩
    · exact hs.pending_lt
    · intro j hj; exact hs.live_lt j (List.mem_of_mem_erase hj)
    · exact hs.pending_nodup
    · exact hs.live_nodup.erase i
    · intro j hj hmem'
      exact hs.pending_not_live j hj (List.mem_of_mem_erase hmem')
    · intro j hj
      have hne : j ≠ i := fun e => hs.pending_not_live j hj (e ▸ hmem)
      simp only [hne, if_false]
      exact hs.pending_status j hj
    · intro j hj hjn
      by_cases hji : j = i
      · subst hji; simp only [if_pos rfl] at hj; exact absurd hj ht.1
      · simp only [hji, if_false] at hj
        exact hs.pending_complete j hj hjn
    · intro j hj
      have hne : j ≠ i := ((hs.live_nodup.mem_erase_iff).mp hj).1
      have hj' : j ∈ s.live := ((hs.live_nodup.mem_erase_iff).mp hj).2
      simp only [hne, if_false]
      exact hs.live_status j hj'
    · intro j hj
      by_cases hji : j = i
      · subst hji; simp only [if_pos rfl] at hj; exact absurd hj ht.2
      · simp only [hji, if_false] at hj
        exact (List.mem_erase_of_ne hji).mpr (hs.running_live j hj)
    · exact le_trans (List.erase_sublist i s.live).length_le hs.live_le
    · exact hs.done_pending
    · intro hd j hjn
      by_cases hji : j = i
      · subst hji; simpa using ht
      · simp only [hji, if_false]
        exact hs.done_no_active hd j hjn
  | sweep hdone hcancel =>
    refine ⟨?_, ?_, ?_, ?_, ?_, ?_, ?_, ?_, ?_, ?_, ?_, ?_⟩
    · intro j hj; simp at hj
    · exact hs.live_lt
    · exact List.nodup_nil
    · exact hs.live_nodup
    · intro j hj; simp at hj
    · intro j hj; simp at hj
    · intro j hj _; exact absurd hj (cancelRewrite_not_active (s.jobs j)).1
    · intro j hj
      rcases hs.live_status j hj with hrun | ⟨hfc, _⟩
      · right; exact ⟨cancelRewrite_active (Or.inr hrun), hcancel⟩
      · right
        refine ⟨?_, hcancel⟩
        show cancelRewrite (s.jobs j) = JobStatus.Failed "Cancelled"
        rw [hfc]; simp [cancelRewrite]
    · intro j hj; exact absurd hj (cancelRewrite_not_active (s.jobs j)).2
    · exact hs.live_le
    · intro _; rfl
    · intro _ j _
      exact ⟨(cancelRewrite_not_active (s.jobs j)).1, (cancelRewrite_not_active (s.jobs j)).2⟩
  | cancelReq =>
    refine ⟨hs.pending_lt, hs.live_lt, hs.pending_nodup, hs.live_nodup,
      hs.pending_not_live, hs.pending_status, hs.pending_complete, ?_,
      hs.running_live, hs.live_le, hs.done_pending, hs.done_no_active⟩
    intro j hj
    rcases hs.live_status j hj with hrun | ⟨hfc, _⟩
    · exact Or.inl hrun
    · exact Or.inr ⟨hfc, rfl⟩
  | finish hdone hpend hlive =>
    refine ⟨hs.pending_lt, hs.live_lt, hs.pending_nodup, hs.live_nodup,
      hs.pending_not_live, hs.pending_status, hs.pending_complete, hs.live_status,
      hs.running_live, hs.live_le, ?_, ?_⟩
    · intro _; exact hpend
    · intro _ j hjn
      constructor
      · intro hp
        have := hs.pending_complete j hp hjn
        rw [hpend] at this; simp at this
      · intro hr
        have := hs.running_live j hr
        rw [hlive] at this; simp at this

theorem schedInv_reach {C N : Nat} {s : SchedState} (h : Reach C N s) : SchedInv C s := by
  unfold Reach at h
  induction h with
  | refl => exact schedInv_init C N
  | tail hab hbc ih =>
    obtain ⟨l, hl⟩ := hbc
    exact schedInv_step ih hl

/- ## The concrete cancelled run used to refute C1 and C3 -/

theorem step_st0_st1 : Step 1 st0 (.dispatch 0) st1 :=
  Step.dispatch st0 0 [] rfl rfl (by decide) (by decide)

theorem step_st1_st2 : Step 1 st1 .cancelReq st2 :=
  Step.cancelReq st1

theorem step_st2_st3 : Step 1 st2 .sweep st3 :=
  Step.sweep st2 rfl rfl

theorem step_st3_st4 : Step 1 st3 (.write 0 .Success) st4 :=
  Step.write st3 0 .Success (by decide) rfl

theorem reach_st1 : Reach 1 1 st1 :=
  Relation.ReflTransGen.single ⟨_, step_st0_st1⟩

theorem reach_st2 : Reach 1 1 st2 :=
  Relation.ReflTransGen.tail reach_st1 ⟨_, step_st1_st2⟩

theorem reach_st3 : Reach 1 1 st3 :=
  Relation.ReflTransGen.tail reach_st2 ⟨_, step_st2_st3⟩

/- ## C1: per-job status transitions -/

/-- C1 (counterexample): the claimed transition discipline — Pending, then
Running, then exactly one terminal status, with the cancellation rewrite to
`Failed("Cancelled")` as the only post-terminal mutation — is violated: in a
one-job run with `C = 1` that is cancelled while the job's worker is live,
the sweep writes `Failed("Cancelled")` and the still-live worker then
overwrites it with `Success`, a mutation of a terminal status that is not the
cancellation rewrite. -/
theorem c1_counterexample : ¬ ClaimC1 := by
  intro h
  have hv := h 1 1 st3 (.write 0 .Success) st4 reach_st3 step_st3_st4 0 (by decide)
  exact absurd hv (by decide)

/-- C1 (amended): along every step of every reachable run, each job's status
either stays, moves Pending→Running at admission, moves Running→terminal by
its worker's single write, is rewritten to `Failed("Cancelled")` while the
cancel flag is set, or — for a job already rewritten to `Failed("Cancelled")`
whose worker was still live at cancellation — is overwritten once by that
worker's terminal result (last-write-wins). -/
theorem c1_transitions_amended : ∀ (C N : Nat) (s : SchedState) (l : Label) (s' : SchedState),
    Reach C N s → Step C s l s' →
    ∀ j, j < s.n → okAmended s.cancel (s.jobs j) (s'.jobs j) = true := by
  intro C N s l s' hr hstep j hj
  have hinv := schedInv_reach hr
  cases hstep with
  | dispatch i rest hdone hcancel hpend hlen =>
    by_cases hji : j = i
    · subst hji
      have hp : s.jobs j = .Pending :=
        hinv.pending_status j (by rw [hpend]; exact List.mem_cons_self j rest)
      simp [okAmended, okC1, hp]
    · simp [okAmended, okC1, hji]
  | write i t hmem hterm =>
    by_cases hji : j = i
    · subst hji
      rcases hinv.live_status j hmem with hrun | ⟨hfc, hc⟩
      · simp [okAmended, okC1, hrun, hterm]
      · simp [okAmended, okC1, hfc, hc, hterm]
    · simp [okAmended, okC1, hji]
  | sweep hdone hcancel =>
    show okAmended s.cancel (s.jobs j) (cancelRewrite (s.jobs j)) = true
    by_cases hact : s.jobs j = .Pending ∨ s.jobs j = .Running
    · rw [cancelRewrite_active hact]
      simp [okAmended, okC1, hcancel]
    · push_neg at hact
      rw [cancelRewrite_of_not_active hact.1 hact.2]
      simp [okAmended, okC1]
  | cancelReq =>
    show okAmended s.cancel (s.jobs j) (s.jobs j) = true
    simp [okAmended, okC1]
  | finish hdone hpend hlive =>
    show okAmended s.cancel (s.jobs j) (s.jobs j) = true
    simp [okAmended, okC1]

/-- C1 (witness): the amended transition discipline at a concrete admission
step of the one-job run. -/
theorem c1_transitions_amended_witness :
    okAmended st0.cancel (st0.jobs 0) (st1.jobs 0) = true :=
  c1_transitions_amended 1 1 st0 (.dispatch 0) st1 Relation.ReflTransGen.refl
    step_st0_st1 0 (by decide)

/- ## C2: bounded concurrency, all jobs terminal at scheduler exit -/

/-- C2: at every reachable state of a run with concurrency limit `C`, at most
`C` jobs are `Running`; and once the scheduler thread has exited, every job
of the run carries a terminal status. -/
theorem c2_running_le_limit : ∀ (C N : Nat) (s : SchedState), Reach C N s →
    runningCount s ≤ C ∧ (s.done = true → ∀ j, j < s.n → isTerminal (s.jobs j) = true) := by
  intro C N s hr
  have hinv := schedInv_reach hr
  constructor
  · show ((Finset.range s.n).filter (fun i => s.jobs i = JobStatus.Running)).card ≤ C
    have hsub : (Finset.range s.n).filter (fun i => s.jobs i = JobStatus.Running)
        ⊆ s.live.toFinset := by
      intro i hi
      rw [Finset.mem_filter] at hi
      exact List.mem_toFinset.mpr (hinv.running_live i hi.2)
    calc ((Finset.range s.n).filter (fun i => s.jobs i = JobStatus.Running)).card
        ≤ s.live.toFinset.card := Finset.card_le_card hsub
      _ ≤ s.live.length := s.live.toFinset_card_le
      _ ≤ C := hinv.live_le
  · intro hd j hj
    have h := hinv.done_no_active hd j hj
    exact isTerminal_of_ne_active h.1 h.2

/-- C2 (witness): the bound instantiated for the spec's 10-target run with
`C = 3`, at the initial state. -/
theorem c2_running_le_limit_witness : runningCount (initState 10) ≤ 3 :=
  (c2_running_le_limit 3 10 (initState 10) Relation.ReflTransGen.refl).1

/- ## C3: cancellation -/

/-- C3 (counterexample): as stated the claim is false: in the cancelled
one-job run, after the sweep the still-live worker overwrites
`Failed("Cancelled")` with `Success`, so the final state of the run holds a
job that is neither `Failed("Cancelled")` nor a terminal status it already
had when the scheduler observed the flag (it was `Running` then). -/
theorem c3_counterexample : ¬ ClaimC3 := by
  intro h
  have hv := h 1 1 st2 st3 st4 reach_st2 step_st2_st3
    (Relation.ReflTransGen.single ⟨_, step_st3_st4⟩) rfl (by decide) 0 (by decide)
  rcases hv with h1 | ⟨_, h3⟩
  · exact absurd h1 (by decide)
  · exact absurd h3 (by decide)

/-- C3 (amended): the cancellation sweep rewrites every `Pending`/`Running`
job to `Failed("Cancelled")`, leaves terminal jobs unchanged, and exits the
scheduler with an empty queue (no further admission); after the scheduler has
exited, no step ever makes a job `Pending` or `Running` again; and in every
reachable state with the scheduler exited, every job is terminal — though a
worker still live at the sweep may overwrite the `Failed("Cancelled")`
rewrite with its own terminal result afterwards. -/
theorem c3_cancellation_amended : ∀ (C N : Nat) (s : SchedState) (l : Label) (s' : SchedState),
    Reach C N s → Step C s l s' →
    (l = .sweep → s'.done = true ∧ s'.pending = [] ∧
        ∀ j, ((s.jobs j = .Pending ∨ s.jobs j = .Running) → s'.jobs j = .Failed "Cancelled") ∧
             (isTerminal (s.jobs j) = true → s'.jobs j = s.jobs j))
    ∧ (s.done = true → ∀ j, j < s.n → s'.jobs j ≠ .Pending ∧ s'.jobs j ≠ .Running)
    ∧ (s'.done = true → ∀ j, j < s'.n → isTerminal (s'.jobs j) = true) := by
  intro C N s l s' hr hstep
  have hinv := schedInv_reach hr
  have hinv' := schedInv_step hinv hstep
  refine ⟨?_, ?_, ?_⟩
  · intro hl
    cases hstep with
    | dispatch i rest hdone hcancel hpend hlen => exact Label.noConfusion hl
    | write i t hmem hterm => exact Label.noConfusion hl
    | cancelReq => exact Label.noConfusion hl
    | finish hdone hpend hlive => exact Label.noConfusion hl
    | sweep hdone hcancel =>
      refine ⟨rfl, rfl, ?_⟩
      intro j
      constructor
      · intro hact
        exact cancelRewrite_active hact
      · intro hterm
        have h := isTerminal_ne_active hterm
        exact cancelRewrite_of_not_active h.1 h.2
  · intro hd j hjn
    cases hstep with
    | dispatch i rest hdone hcancel hpend hlen => rw [hdone] at hd; exact Bool.noConfusion hd
    | write i t hmem hterm =>
      by_cases hji : j = i
      · subst hji
        simpa using isTerminal_ne_active hterm
      · have h := hinv.done_no_active hd j hjn
        simpa [hji] using h
    | sweep hdone hcancel => rw [hdone] at hd; exact Bool.noConfusion hd
    | cancelReq => exact hinv.done_no_active hd j hjn
    | finish hdone hpend hlive => rw [hdone] at hd; exact Bool.noConfusion hd
  · intro hd j hjn
    have h := hinv'.done_no_active hd j hjn
    exact isTerminal_of_ne_active h.1 h.2

/-- C3 (witness): in the concrete cancelled run, the sweep rewrites the
Running job 0 to `Failed("Cancelled")`. -/
theorem c3_cancellation_amended_witness : st3.jobs 0 = JobStatus.Failed "Cancelled" := by
  have h := c3_cancellation_amended 1 1 st2 .sweep st3 reach_st2 step_st2_st3
  exact ((h.1 rfl).2.2 0).1 (Or.inr (by decide))

/- ## C4, C5, C6: outcome classification -/

/-- C4: for every combined output carrying the zero-items marker,
classification is: discovered files win (`Success`); otherwise, when not
forcing, a positive embedded probe yields `EmbeddedExists` naming the matched
language, a negative probe with an "already satisfied" phrase yields
`EmbeddedExists` naming the first requested language, and otherwise `Failed`;
when forcing with nothing downloaded, `Failed("No subtitles found online")`. -/
theorem c4_zero_fetched (out : String) (langs : List String)
    (hz : strContainsSub out "downloaded 0 subtitle" = true) :
    (∀ files force probe, files ≠ ([] : List String) →
        classify out files force langs probe = .Success)
    ∧ (∀ name, classify out [] false langs (some name) = .EmbeddedExists (embeddedMsg name))
    ∧ (embedded_phrases.any (fun ph => strContainsSub out ph) = true →
        classify out [] false langs none
          = .EmbeddedExists (embeddedMsg (language_code_to_name (langs.getD 0 "unknown"))))
    ∧ (embedded_phrases.any (fun ph => strContainsSub out ph) = false →
        classify out [] false langs none
          = .Failed "No subtitles found (no embedded or external subtitles available)")
    ∧ (∀ probe, classify out [] true langs probe = .Failed "No subtitles found online") := by
  refine ⟨?_, ?_, ?_, ?_, ?_⟩
  · intro files force probe hne
    cases files with
    | nil => exact absurd rfl hne
    | cons a as => simp [classify, hz]
  · intro name
    simp [classify, hz]
  · intro hph
    simp [classify, hz, hph]
  · intro hph
    simp [classify, hz, hph]
  · intro probe
    simp [classify, hz]

/-- C4 (witness): the spec's instance: literal output
`"Downloaded 0 subtitles"`, zero discovered files, force off, a probe match
for `en` — classification names English. -/
theorem c4_zero_fetched_witness :
    classify (combineOutput "Downloaded 0 subtitles" "") [] false ["en"] (some "English")
      = .EmbeddedExists (embeddedMsg "English") :=
  (c4_zero_fetched (combineOutput "Downloaded 0 subtitles" "") ["en"] (by decide)).2.1 "English"

/-- C5: for every combined output with an error/failure keyword and no
zero-items marker: under the DBM cache-corruption signature the status is
`Success` with discovered files and `Failed` without; otherwise `Success`
with discovered files and `Failed("Subliminal error: see log")` without. -/
theorem c5_error_output (out : String) (langs : List String)
    (hz : strContainsSub out "downloaded 0 subtitle" = false)
    (he : errorKeyword out = true) :
    (∀ files force probe, dbmSignature out = true → files ≠ ([] : List String) →
        classify out files force langs probe = .Success)
    ∧ (∀ force probe, dbmSignature out = true →
        classify out [] force langs probe = .Failed "DBM cache error - try again later")
    ∧ (∀ files force probe, dbmSignature out = false → files ≠ ([] : List String) →
        classify out files force langs probe = .Success)
    ∧ (∀ force probe, dbmSignature out = false →
        classify out [] force langs probe = .Failed "Subliminal error: see log") := by
  have he' : (strContainsSub out "error" || strContainsSub out "failed") = true := he
  refine ⟨?_, ?_, ?_, ?_⟩
  · intro files force probe hd hne
    have hd' : (strContainsSub out "dbm.error"
        || strContainsSub out "db type could not be determined") = true := hd
    cases files with
    | nil => exact absurd rfl hne
    | cons a as => simp [classify, hz, he', hd']
  · intro force probe hd
    have hd' : (strContainsSub out "dbm.error"
        || strContainsSub out "db type could not be determined") = true := hd
    simp [classify, hz, he', hd']
  · intro files force probe hd hne
    have hd' : (strContainsSub out "dbm.error"
        || strContainsSub out "db type could not be determined") = false := hd
    cases files with
    | nil => exact absurd rfl hne
    | cons a as => simp [classify, hz, he', hd']
  · intro force probe hd
    have hd' : (strContainsSub out "dbm.error"
        || strContainsSub out "db type could not be determined") = false := hd
    simp [classify, hz, he', hd']

/-- C5 (witness): output containing `"error"` and the DBM cache-corruption
substring with one discovered file classifies as `Success`. -/
theorem c5_error_output_witness :
    classify "error: dbm.error" ["a.srt"] false ["en"] none = .Success :=
  (c5_error_output "error: dbm.error" ["en"] (by decide) (by decide)).1
    ["a.srt"] false none (by decide) (by decide)

/-- C6: a combined output with neither the zero-items marker nor an
error/failure keyword classifies as `Success`, whatever the discovered-file
count — including zero files. -/
theorem c6_silent_success (out : String)
    (hz : strContainsSub out "downloaded 0 subtitle" = false)
    (he : errorKeyword out = false) :
    ∀ files force langs probe, classify out files force langs probe = .Success := by
  have he' : (strContainsSub out "error" || strContainsSub out "failed") = false := he
  intro files force langs probe
  simp [classify, hz, he']

/-- C6 (witness): the empty combined output with zero discovered files
classifies as `Success`. -/
theorem c6_silent_success_witness :
    classify "" [] false [] none = .Success :=
  c6_silent_success "" (by decide) (by decide) [] false [] none

/- ## C7: validation of the concurrency limit -/

/-- C7 (counterexample): the claim that every concurrency value reaching the
scheduler lies in `[1, 100]` whatever its source is false: `Settings::load`
performs no validation, so a settings file holding `concurrent_downloads: 0`
reaches the scheduler as `C = 0`. -/
theorem c7_counterexample : ¬ ClaimC7 := by
  intro h
  have hv := (h (some badSettings)).1
  exact absurd hv (by decide)

/-- C7 (amended): only the GUI input path validates the concurrency limit —
`is_valid_concurrent_downloads` accepts exactly `[1, 100]`, the text-field
handler keeps a valid current value valid, and the default is 25 — while a
value loaded from the settings file reaches the scheduler unvalidated (a
parsed file with 0 yields scheduler limit 0). -/
theorem c7_validation_amended :
    (∀ v : Nat, is_valid_concurrent_downloads v ↔ 1 ≤ v ∧ v ≤ 100)
    ∧ (∀ current input, 1 ≤ current → current ≤ 100 →
        1 ≤ render_concurrent_update current input
          ∧ render_concurrent_update current input ≤ 100)
    ∧ (1 ≤ DEFAULT_CONCURRENT_DOWNLOADS ∧ DEFAULT_CONCURRENT_DOWNLOADS ≤ 100)
    ∧ schedulerLimitOfLoad (some badSettings) = 0 := by
  refine ⟨?_, ?_, ?_, rfl⟩
  · intro v
    unfold is_valid_concurrent_downloads MAX_CONCURRENT_DOWNLOADS
    omega
  · intro current input h1 h2
    match input with
    | none => exact ⟨h1, h2⟩
    | some v =>
      by_cases hv : is_valid_concurrent_downloads v
      · have hv' := hv
        unfold is_valid_concurrent_downloads MAX_CONCURRENT_DOWNLOADS at hv'
        simp only [render_concurrent_update, if_pos hv]
        omega
      · simp only [render_concurrent_update, if_neg hv]
        exact ⟨h1, h2⟩
  · exact ⟨by decide, by decide⟩

/-- C7 (witness): an invalid GUI entry (0) leaves a valid current value (25)
in range. -/
theorem c7_validation_amended_witness :
    1 ≤ render_concurrent_update 25 (some 0)
      ∧ render_concurrent_update 25 (some 0) ≤ 100 :=
  c7_validation_amended.2.1 25 (some 0) (by decide) (by decide)

/- ## C8: tool invocation and fallback chain -/

theorem foldl_lang_pairs (langs : List String) (acc : List String) :
    langs.foldl (fun a lang => a ++ ["-l", lang]) acc
      = acc ++ langs.flatMap (fun lang => ["-l", lang]) := by
  induction langs generalizing acc with
  | nil => simp
  | cons l ls ih => simp [List.foldl_cons, ih]

theorem tryChain_eq_none_iff (launch : String → List String → Option CmdOutput)
    (chain : List (String × List String)) :
    tryChain launch chain = none ↔ ∀ ca ∈ chain, launch ca.1 ca.2 = none := by
  induction chain with
  | nil => simp [tryChain]
  | cons c rest ih =>
    obtain ⟨cmd, args⟩ := c
    cases hl : launch cmd args with
    | some o =>
      simp only [tryChain, hl]
      constructor
      · intro h; exact absurd h (by simp)
      · intro h
        have hc := h (cmd, args) (List.mem_cons_self _ _)
        rw [hl] at hc
        exact absurd hc (by simp)
    | none =>
      simp only [tryChain, hl]
      rw [ih]
      constructor
      · intro h ca hca
        rcases List.mem_cons.mp hca with rfl | hca
        · exact hl
        · exact h ca hca
      · intro h ca hca
        exact h ca (List.mem_cons_of_mem _ hca)

theorem tryChain_first (launch : String → List String → Option CmdOutput)
    (pre : List (String × List String)) :
    ∀ (ca : String × List String) (post : List (String × List String)) (out : CmdOutput),
      (∀ c ∈ pre, launch c.1 c.2 = none) → launch ca.1 ca.2 = some out →
      tryChain launch (pre ++ ca :: post) = some out := by
  induction pre with
  | nil =>
    intro ca post out _ hca
    obtain ⟨cmd, args⟩ := ca
    show tryChain launch ((cmd, args) :: post) = some out
    simp only [tryChain]
    rw [hca]
  | cons c cs ih =>
    intro ca post out hpre hca
    obtain ⟨cmd, args⟩ := c
    have hc : launch cmd args = none := hpre (cmd, args) (List.mem_cons_self _ _)
    show tryChain launch ((cmd, args) :: (cs ++ ca :: post)) = some out
    simp only [tryChain, hc]
    exact ih ca post out (fun d hd => hpre d (List.mem_cons_of_mem _ hd)) hca

theorem classify_ne_launch_failure (out : String) (files : List String) (force : Bool)
    (langs : List String) (probe : Option String) :
    classify out files force langs probe ≠ .Failed "Failed to run subliminal" := by
  unfold classify
  repeat' split
  all_goals first | decide | simp

/-- C8 (counterexample): the claimed argument-list shape — `download`, at
most one optional `--force`, the `-l` pairs, the target — is false: with both
`force_download` and `overwrite_existing` enabled the code pushes `--force`
twice (app.rs 461-466). -/
theorem c8_counterexample : ¬ ClaimC8Args := by
  intro h
  obtain ⟨b, hb⟩ := h true true ["en"] "video.mkv"
  cases b
  · exact absurd hb (by decide)
  · exact absurd hb (by decide)

/-- C8 (amended): the primary invocation is the `download` subcommand, one
`--force` per enabled setting among `force_download` and `overwrite_existing`
(hence possibly two), one `-l lang` pair per requested language in request
order, and the target path last; the same argument tail is retried under the
ordered fallback chain `subliminal`, `python -m`, `py -m`, `python3 -m`; the
first launch that starts is used regardless of exit code; and the worker
writes `Failed("Failed to run subliminal")` exactly when every launch in the
chain fails to start. -/
theorem c8_invocation_amended :
    ∀ (force_download overwrite_existing : Bool) (langs : List String) (target : String)
      (launch : String → List String → Option CmdOutput),
    buildAllArgs force_download overwrite_existing langs target
      = ["download"] ++ (if force_download then ["--force"] else [])
          ++ (if overwrite_existing then ["--force"] else [])
          ++ langs.flatMap (fun lang => ["-l", lang]) ++ [target]
    ∧ (∀ (pre : List (String × List String)) (ca : String × List String)
          (post : List (String × List String)) (out : CmdOutput),
        fallbackChain (buildAllArgs force_download overwrite_existing langs target)
          = pre ++ ca :: post →
        (∀ c ∈ pre, launch c.1 c.2 = none) → launch ca.1 ca.2 = some out →
        tryChain launch
          (fallbackChain (buildAllArgs force_download overwrite_existing langs target))
          = some out)
    ∧ (∀ paths probe,
        workerOutcome launch force_download overwrite_existing langs target paths probe
          = .Failed "Failed to run subliminal"
        ↔ ∀ ca ∈ fallbackChain (buildAllArgs force_download overwrite_existing langs target),
            launch ca.1 ca.2 = none) := by
  intro force_download overwrite_existing langs target launch
  refine ⟨?_, ?_, ?_⟩
  · cases force_download <;> cases overwrite_existing <;>
      simp [buildAllArgs, buildArgs, foldl_lang_pairs]
  · intro pre ca post out hchain hpre hca
    rw [hchain]
    exact tryChain_first launch pre ca post out hpre hca
  · intro paths probe
    cases h : tryChain launch
        (fallbackChain (buildAllArgs force_download overwrite_existing langs target)) with
    | some o =>
      constructor
      · intro hw
        have hcl : classify (combineOutput o.stdout o.stderr) paths force_download langs probe
            = .Failed "Failed to run subliminal" := by
          simpa [workerOutcome, h] using hw
        exact absurd hcl (classify_ne_launch_failure _ _ _ _ _)
      · intro hall
        have hnone := (tryChain_eq_none_iff launch _).mpr hall
        rw [h] at hnone
        exact absurd hnone (by simp)
    | none =>
      constructor
      · intro _
        exact (tryChain_eq_none_iff launch _).mp h
      · intro _
        simp [workerOutcome, h]

/-- C8 (witness): when no launcher in the chain starts, the worker records
the launch failure. -/
theorem c8_invocation_amended_witness :
    workerOutcome (fun _ _ => none) false false ["en"] "v.mkv" [] none
      = .Failed "Failed to run subliminal" :=
  ((c8_invocation_amended false false ["en"] "v.mkv" (fun _ _ => none)).2.2 [] none).mpr
    (fun _ _ => rfl)

/- ## C9: installation monitor -/

theorem last_only_of_concat {α : Type} (a : α) (l : List α)
    (h : a ∉ l ∨ ∃ l1, l = l1 ++ [a] ∧ a ∉ l1) :
    ∀ l1 l2, l = l1 ++ a :: l2 → l2 = [] := by
  intro l1 l2 hl
  rcases h with h | ⟨m, hm, hnm⟩
  · subst hl
    exact absurd (by simp : a ∈ l1 ++ a :: l2) h
  · rcases List.eq_nil_or_concat l2 with rfl | ⟨l2', x, rfl⟩
    · rfl
    · have heq : (l1 ++ a :: l2') ++ [x] = m ++ [a] := by
        rw [← hm, hl]; simp
      obtain ⟨h1, _⟩ := List.append_inj' heq (by simp)
      rw [← h1] at hnm
      exact absurd (by simp : a ∈ l1 ++ a :: l2') hnm

theorem monitorSends_true_true_last (probes : List (Bool × Bool)) :
    (((true, true) : Bool × Bool) ∉ monitorSends probes)
    ∨ ∃ l1, monitorSends probes = l1 ++ [((true, true) : Bool × Bool)]
        ∧ ((true, true) : Bool × Bool) ∉ l1 := by
  induction probes with
  | nil => left; simp [monitorSends]
  | cons pr rest ih =>
    obtain ⟨p, sp⟩ := pr
    by_cases hc : (p && (if p then sp else false)) = true
    · right
      have hp : p = true := by
        cases p
        · simp at hc
        · rfl
      have hs : sp = true := by
        rw [hp] at hc
        simpa using hc
      refine ⟨[(false, false)], ?_, by simp⟩
      simp [monitorSends, hp, hs]
    · have hne : (p, (if p then sp else false)) ≠ ((true, true) : Bool × Bool) := by
        intro he
        rw [Prod.mk.injEq] at he
        obtain ⟨hp, hs⟩ := he
        subst hp
        simp_all
      rcases ih with ihn | ⟨l1, h1, h2⟩
      · left
        intro hmem
        simp only [monitorSends] at hmem
        rcases List.mem_cons.mp hmem with h | hmem
        · exact absurd h (by decide)
        rcases List.mem_cons.mp hmem with h | hmem
        · exact hne h.symm
        rw [if_neg hc] at hmem
        rcases List.mem_append.mp hmem with h | h
        · exact absurd (List.eq_of_mem_replicate h) (by decide)
        · exact ihn h
      · right
        refine ⟨(false, false) :: (p, (if p then sp else false))
            :: (List.replicate 50 (false, false) ++ l1), ?_, ?_⟩
        · show monitorSends ((p, sp) :: rest) = _
          simp only [monitorSends]
          rw [if_neg hc, h1]
          simp
        · intro hmem
          rcases List.mem_cons.mp hmem with h | hmem
          · exact absurd h (by decide)
          rcases List.mem_cons.mp hmem with h | hmem
          · exact hne h.symm
          rcases List.mem_append.mp hmem with h | h
          · exact absurd (List.eq_of_mem_replicate h) (by decide)
          · exact h2 h

theorem monitorSends_msg_shape (probes : List (Bool × Bool)) :
    ∀ m ∈ monitorSends probes, m = ((false, false) : Bool × Bool) ∨ m.1 = true := by
  induction probes with
  | nil => intro m hm; simp [monitorSends] at hm
  | cons pr rest ih =>
    obtain ⟨p, sp⟩ := pr
    intro m hm
    simp only [monitorSends] at hm
    rcases List.mem_cons.mp hm with rfl | hm
    · left; rfl
    rcases List.mem_cons.mp hm with rfl | hm
    · cases p
      · left; simp
      · right; rfl
    · by_cases hc : (p && (if p then sp else false)) = true
      · rw [if_pos hc] at hm
        simp at hm
      · rw [if_neg hc] at hm
        rcases List.mem_append.mp hm with h | h
        · left; exact List.eq_of_mem_replicate h
        · exact ih m h

theorem applyStatus_pipx_true (st : MonState) (b : Bool) :
    (applyStatus st true b).pipx_installed = true := by
  simp only [applyStatus]
  split <;> split <;> rfl

theorem applyStatus_count_le (st : MonState) (b : Bool) :
    (applyStatus st true b).trigger_count ≤ st.trigger_count + 1 := by
  simp only [applyStatus]
  split <;> split <;> simp

theorem applyStatus_count_eq (st : MonState) (b : Bool) (h : st.pipx_installed = true) :
    (applyStatus st true b).trigger_count = st.trigger_count := by
  simp only [applyStatus, h]
  rfl

theorem runCaller_trigger_le (msgs : List (Bool × Bool)) :
    ∀ st : MonState, (∀ m ∈ msgs, m = ((false, false) : Bool × Bool) ∨ m.1 = true) →
    st.trigger_count ≤ 1 → (st.pipx_installed = false → st.trigger_count = 0) →
    (runCaller st msgs).trigger_count ≤ 1 := by
  induction msgs with
  | nil => intro st _ h1 _; exact h1
  | cons m rest ih =>
    intro st hm h1 h2
    have hrest : ∀ x ∈ rest, x = ((false, false) : Bool × Bool) ∨ x.1 = true :=
      fun x hx => hm x (List.mem_cons_of_mem _ hx)
    show (runCaller (applyMsg st m) rest).trigger_count ≤ 1
    rcases hm m (List.mem_cons_self _ _) with rfl | htrue
    · have happ : applyMsg st (false, false) = st := by simp [applyMsg]
      rw [happ]
      exact ih st hrest h1 h2
    · obtain ⟨b1, b2⟩ := m
      cases b1 with
      | false => exact absurd htrue (by simp)
      | true =>
        have happ : applyMsg st (true, b2) = applyStatus st true b2 := by
          simp [applyMsg]
        rw [happ]
        cases hpipx : st.pipx_installed with
        | true =>
          apply ih (applyStatus st true b2) hrest
          · rw [applyStatus_count_eq st b2 hpipx]
            exact h1
          · intro hf
            rw [applyStatus_pipx_true] at hf
            exact Bool.noConfusion hf
        | false =>
          apply ih (applyStatus st true b2) hrest
          · have hz := h2 hpipx
            have hle := applyStatus_count_le st b2
            omega
          · intro hf
            rw [applyStatus_pipx_true] at hf
            exact Bool.noConfusion hf

/-- C9: once both dependency stages report available the monitor thread sends
that pair and stops — any `(true, true)` message is the last one sent; and
across any run (whatever the startup probe results and the probe stream), the
one-shot subliminal installer thread is spawned at most once. -/
theorem c9_monitor_once (probes : List (Bool × Bool)) (python pipx subl : Bool) :
    (∀ l1 l2, monitorSends probes = l1 ++ ((true, true) : Bool × Bool) :: l2 → l2 = [])
    ∧ (runCaller (initMon python pipx subl) (monitorSends probes)).trigger_count ≤ 1 := by
  constructor
  · exact last_only_of_concat _ _ (monitorSends_true_true_last probes)
  · apply runCaller_trigger_le (monitorSends probes) (initMon python pipx subl)
      (monitorSends_msg_shape probes)
    · simp only [initMon]
      split <;> simp
    · intro hp
      simp only [initMon] at hp ⊢
      rw [hp]
      simp

/-- C9 (witness): with both stages probed available, the monitor's send trace
is a ping followed by the final `(true, true)` — nothing after it. -/
theorem c9_monitor_once_witness : ([] : List (Bool × Bool)) = [] :=
  (c9_monitor_once [((true : Bool), (true : Bool))] true true true).1
    [((false : Bool), (false : Bool))] [] (by decide)

/- ## C10: result-file lookup -/

theorem firstExisting_eq_find (ex : String → Bool) (l : List String) :
    firstExisting ex l = l.find? ex := by
  induction l with
  | nil => rfl
  | cons c cs ih =>
    by_cases h : ex c
    · simp [firstExisting, h, List.find?_cons_of_pos]
    · simp [firstExisting, h, List.find?_cons_of_neg, ih]

theorem foldl_firstHit (f : String → Option String) (langs : List String) (acc : List String) :
    langs.foldl (fun a lang => match f lang with | some c => a ++ [c] | none => a) acc
      = acc ++ langs.filterMap f := by
  induction langs generalizing acc with
  | nil => simp
  | cons l ls ih =>
    cases hf : f l with
    | some c => simp [List.foldl_cons, hf, ih, List.filterMap_cons]
    | none => simp [List.foldl_cons, hf, ih, List.filterMap_cons]

/-- C10: the lookup returns, in request order, at most one path per requested
language — the first existing candidate over the extensions `srt, sub, ssa,
ass, vtt` in that order — followed by at most one generic language-less path,
so its length is at most `langs.length + 1`; and it returns `[]` whenever the
video path has no parent directory or no UTF-8 file stem. -/
theorem c10_lookup_shape (ex : String → Bool) (parent stem : Option String)
    (langs : List String) (folder st : String) :
    find_all_subtitle_files ex none stem langs = []
    ∧ find_all_subtitle_files ex parent none langs = []
    ∧ find_all_subtitle_files ex (some folder) (some st) langs
        = langs.filterMap (fun lang => (langCandidates folder st lang).find? ex)
          ++ ((genCandidates folder st).find? ex).toList
    ∧ (find_all_subtitle_files ex (some folder) (some st) langs).length
        ≤ langs.length + 1 := by
  have hchar : find_all_subtitle_files ex (some folder) (some st) langs
      = langs.filterMap (fun lang => (langCandidates folder st lang).find? ex)
        ++ ((genCandidates folder st).find? ex).toList := by
    unfold find_all_subtitle_files
    dsimp only
    rw [foldl_firstHit (fun lang => firstExisting ex (langCandidates folder st lang)) langs []]
    simp only [firstExisting_eq_find]
    cases hg : (genCandidates folder st).find? ex <;> simp [hg]
  refine ⟨rfl, ?_, hchar, ?_⟩
  · cases parent <;> rfl
  · rw [hchar, List.length_append]
    have h1 : (langs.filterMap (fun lang => (langCandidates folder st lang).find? ex)).length
        ≤ langs.length := List.length_filterMap_le _ _
    have h2 : ((genCandidates folder st).find? ex).toList.length ≤ 1 := by
      cases (genCandidates folder st).find? ex <;> simp
    omega
